import Mathlib

/-!
Verification of the nimsforestencoder streaming pipeline.

The Go sources are shallowly embedded: `Options` and `withDefaults` come from
options.go, the `Encoder` controller (`Start`, `Stop`, `processFrames`,
`frameToRGBA`, `WaitReady`) from hls.go, and the ffmpeg subprocess adapter
(`WriteFrame`, `Close`) from ffmpeg.go.  Go `int` is modelled as `Int`;
side effects (directory creation, server start/stop, process spawn, stdin
writes) are recorded as explicit traces of actions; the outcomes of external
operations (whether mkdir succeeds, whether ffmpeg exits cleanly, ...) are
supplied by explicit environment records.
-/

namespace NimsforestEncoder

/-- Options configures the encoder (options.go).  Go `int` fields become
`Int`. -/
structure Options where
  Width : Int
  Height : Int
  FrameRate : Int
  SegmentDuration : Int
  Port : Int
  deriving Repr, DecidableEq

/-- DefaultOptions returns Options with default values (options.go). -/
def DefaultOptions : Options :=
  { Width := 1920
    Height := 1080
    FrameRate := 30
    SegmentDuration := 2
    Port := 0 }

/-- withDefaults returns a copy of opts with default values applied for zero
fields (options.go).  Port 0 is valid (auto-assign), so no default is applied
to it. -/
def Options.withDefaults (opts : Options) : Options :=
  let defaults := DefaultOptions
  let opts := if opts.Width = 0 then { opts with Width := defaults.Width } else opts
  let opts := if opts.Height = 0 then { opts with Height := defaults.Height } else opts
  let opts := if opts.FrameRate = 0 then { opts with FrameRate := defaults.FrameRate } else opts
  let opts := if opts.SegmentDuration = 0 then { opts with SegmentDuration := defaults.SegmentDuration } else opts
  opts

/-- The mutable fields of the Go `Encoder` struct (hls.go).  `ffmpeg` and
`hlsServer` record whether the corresponding pointer is non-nil, `outputDir`
is the Go string field (empty = never assigned), `hasCancel` records whether
`e.cancel` is non-nil. -/
structure EncState where
  opts : Options
  ffmpeg : Bool
  hlsServer : Bool
  outputDir : String
  running : Bool
  hasCancel : Bool
  deriving Repr, DecidableEq

/-- The zero-valued Encoder struct produced by `&Encoder{opts: opts}`. -/
def initEncState (opts : Options) : EncState :=
  { opts := opts
    ffmpeg := false
    hlsServer := false
    outputDir := ""
    running := false
    hasCancel := false }

/-- New creates a new Encoder with the given options (hls.go).  The Go
function returns `(*Encoder, error)`; it always returns a non-nil pointer and
a nil error. -/
def New (opts : Options) : Option EncState × Option String :=
  (some (initEncState opts.withDefaults), none)

/-- Side effects of a `Start` call, recorded in order.  `mkdirTemp d` is a
successful `os.MkdirTemp`, `serverStart p` is a successful `newHLSServer`
followed by `hlsServer.Start()`, `serverStop p` is `hlsServer.Stop`,
`removeAll d` is `os.RemoveAll(d)`, `spawnEncoder` is a successful
`newFFmpegProcess`, `forwardLaunch` is the launch of the `processFrames`
goroutine. -/
inductive StartAction where
  | mkdirTemp (d : String)
  | removeAll (d : String)
  | serverStart (p : Int)
  | serverStop (p : Int)
  | spawnEncoder
  | forwardLaunch
  deriving Repr, DecidableEq

/-- Errors a `Start` call can return (hls.go). -/
inductive StartErr where
  | alreadyRunning
  | workingDir
  | bind
  | spawn
  deriving Repr, DecidableEq

/-- Outcomes of the external operations `Start` performs: whether
`os.MkdirTemp` succeeds and the directory name it picks, whether the listener
bind in `newHLSServer` succeeds and the port it gets, whether
`newFFmpegProcess` manages to spawn ffmpeg, and the outbound IP used to build
the URL. -/
structure StartEnv where
  mkdirOk : Bool
  dirName : String
  bindOk : Bool
  boundPort : Int
  spawnOk : Bool
  outboundIP : String
  deriving Repr, DecidableEq

/-- `hlsServer.URL()` (hls.go): builds the playlist URL from the outbound IP
and the actually-bound port. -/
def hlsURL (ip : String) (port : Int) : String :=
  "http://" ++ ip ++ ":" ++ toString port ++ "/stream.m3u8"

/-- Start begins encoding frames and returns the HLS URL (hls.go, Encoder.Start).
Returns the updated encoder state, the trace of side effects, and either the
URL or the error. -/
def Encoder.Start (e : EncState) (env : StartEnv) :
    EncState × List StartAction × Except StartErr String :=
  if e.running then
    (e, [], .error .alreadyRunning)
  else if !env.mkdirOk then
    (e, [], .error .workingDir)
  else
    let e1 := { e with outputDir := env.dirName }
    if !env.bindOk then
      (e1, [.mkdirTemp env.dirName, .removeAll env.dirName], .error .bind)
    else
      let e2 := { e1 with hlsServer := true }
      if !env.spawnOk then
        (e2, [.mkdirTemp env.dirName, .serverStart env.boundPort,
              .serverStop env.boundPort, .removeAll env.dirName], .error .spawn)
      else
        let e3 := { e2 with ffmpeg := true, hasCancel := true, running := true }
        (e3, [.mkdirTemp env.dirName, .serverStart env.boundPort,
              .spawnEncoder, .forwardLaunch],
         .ok (hlsURL env.outboundIP env.boundPort))

/-- Teardown steps of a `Stop` call, recorded in order (hls.go, Encoder.Stop). -/
inductive StopStep where
  | cancelTask
  | waitTasks
  | closeFFmpeg
  | stopServer
  | removeDir
  | setIdle
  deriving Repr, DecidableEq

/-- The errors `Stop` can collect, one per teardown step (hls.go). -/
inductive StopErr where
  | ffmpegClose
  | serverStop
  | cleanup
  deriving Repr, DecidableEq

/-- Outcomes of the three fallible teardown operations: whether
`ffmpeg.Close()`, `hlsServer.Stop()` and `os.RemoveAll` fail. -/
structure StopEnv where
  closeFails : Bool
  serverStopFails : Bool
  removeFails : Bool
  deriving Repr, DecidableEq

/-- Stop stops the encoder, closes ffmpeg, and shuts down the HTTP server
(hls.go, Encoder.Stop).  Returns the updated state, the trace of teardown
steps executed, and the first collected error (`errs[0]`), if any. -/
def Encoder.Stop (e : EncState) (env : StopEnv) :
    EncState × List StopStep × Option StopErr :=
  if !e.running then
    (e, [], none)
  else
    let t1 : List StopStep := if e.hasCancel then [.cancelTask] else []
    let t2 := t1 ++ [.waitTasks]
    let t3 := if e.ffmpeg then t2 ++ [.closeFFmpeg] else t2
    let errs3 : List StopErr :=
      if e.ffmpeg && env.closeFails then [.ffmpegClose] else []
    let t4 := if e.hlsServer then t3 ++ [.stopServer] else t3
    let errs4 :=
      errs3 ++ if e.hlsServer && env.serverStopFails then [StopErr.serverStop] else []
    let t5 := if e.outputDir ≠ "" then t4 ++ [.removeDir] else t4
    let errs5 :=
      errs4 ++ if e.outputDir ≠ "" then
        (if env.removeFails then [StopErr.cleanup] else []) else []
    ({ e with running := false }, t5 ++ [.setIdle], errs5.head?)

/-- An `image.Image` frame as the forwarding task sees it: its declared
bounds' width and height (`bounds.Dx()`, `bounds.Dy()`) and its pixel bytes
in RGBA layout (what `frameToRGBA` copies into the shared buffer). -/
structure Frame where
  width : Int
  height : Int
  pix : List Nat
  deriving Repr, DecidableEq

/-- frameToRGBA converts an image to raw RGBA bytes (hls.go).  Returns `none`
exactly when the frame's dimensions differ from the configured width/height
(the "frame size mismatch" error); otherwise the RGBA bytes that end up in
the buffer. -/
def Encoder.frameToRGBA (opts : Options) (img : Frame) : Option (List Nat) :=
  if img.width ≠ opts.Width ∨ img.height ≠ opts.Height then
    none
  else
    some img.pix

/-- One iteration's select outcome in `processFrames` (hls.go): the context
is done, the channel yielded a frame, or the channel was closed. -/
inductive FrameEvent where
  | ctxDone
  | frame (f : Frame)
  | closed
  deriving Repr, DecidableEq

/-- processFrames reads frames from the channel and writes them to ffmpeg
(hls.go).  `events` is the sequence of select outcomes the task would observe
if it kept looping; `writeRes` gives the result of each successive
`ffmpeg.WriteFrame` call (`true` = success; once the list is exhausted,
writes succeed).  Returns the buffers passed to `WriteFrame`, in order, and
the list of events the task never consumed because it returned first. -/
def Encoder.processFrames (opts : Options) :
    List Bool → List FrameEvent → List (List Nat) × List FrameEvent
  | _, [] => ([], [])
  | _, .ctxDone :: rest => ([], rest)
  | _, .closed :: rest => ([], rest)
  | ws, .frame f :: rest =>
    match Encoder.frameToRGBA opts f with
    | none => Encoder.processFrames opts ws rest
    | some buf =>
      if ws.headD true then
        let r := Encoder.processFrames opts ws.tail rest
        (buf :: r.1, r.2)
      else
        ([buf], rest)

/-- The frames the task takes from the source before stopping: the frames of
the longest prefix of events containing neither a cancellation nor a channel
closure. -/
def takenFrames : List FrameEvent → List Frame
  | [] => []
  | .ctxDone :: _ => []
  | .closed :: _ => []
  | .frame f :: rest => f :: takenFrames rest

/-- The result of one `WaitReady` poll iteration's environment (hls.go): is
`ctx.Done()` fired, is `time.Now()` past the deadline, and the observation of
the playlist file (`none` = `os.Stat` errors, `some n` = file exists with
size `n`). -/
structure WRTick where
  ctxDone : Bool
  pastDeadline : Bool
  m3u8 : Option Nat
  deriving Repr, DecidableEq

/-- What a `WaitReady` call returns (hls.go). -/
inductive WRResult where
  | notStarted
  | ctxErr
  | timeout
  | ready
  deriving Repr, DecidableEq

/-- The polling loop of `WaitReady` (hls.go): each iteration checks the
context, then the deadline, then stats the playlist file.  `none` means the
supplied tick list ran out with the loop still going. -/
def waitReadyLoop : List WRTick → Option WRResult
  | [] => none
  | t :: rest =>
    if t.ctxDone then some .ctxErr
    else if t.pastDeadline then some .timeout
    else
      match t.m3u8 with
      | some n => if n > 0 then some .ready else waitReadyLoop rest
      | none => waitReadyLoop rest

/-- WaitReady waits for the HLS stream to be ready (hls.go).  `outputDir` is
the encoder's working-directory field (empty when never started); `ticks`
supplies the environment of each poll iteration. -/
def Encoder.WaitReady (outputDir : String) (ticks : List WRTick) : Option WRResult :=
  if outputDir = "" then some .notStarted else waitReadyLoop ticks

/-- Errors `ffmpegProcess.WriteFrame` can return (ffmpeg.go): the
"invalid frame size" error, or the wrapped error of a failed
`stdin.Write`. -/
inductive WFErr where
  | frameSize
  | writeFail
  deriving Repr, DecidableEq

/-- WriteFrame writes raw RGBA frame data to ffmpeg (ffmpeg.go).  Returns the
buffers passed to `stdin.Write` (each such call receives one whole buffer)
and the error: a frame-size error when the length is wrong, a write error
when the pipe write fails (`writeOk = false`), otherwise success. -/
def FFmpeg.WriteFrame (opts : Options) (data : List Nat) (writeOk : Bool) :
    List (List Nat) × Option WFErr :=
  let expectedSize := opts.Width * opts.Height * 4
  if (data.length : Int) ≠ expectedSize then
    ([], some .frameSize)
  else if writeOk then
    ([data], none)
  else
    ([data], some .writeFail)

/-- The two operations `ffmpegProcess.Close` can perform (ffmpeg.go). -/
inductive CloseOp where
  | closeStdin
  | waitChild
  deriving Repr, DecidableEq

/-- Errors `ffmpegProcess.Close` can return (ffmpeg.go). -/
inductive CloseErr where
  | stdinClose
  | ffmpegExit
  deriving Repr, DecidableEq

/-- Outcomes of the external operations in `Close`: whether `stdin.Close()`
succeeds and whether the child's exit status is zero (`cmd.Wait()` returns
nil). -/
structure CloseEnv where
  stdinCloseOk : Bool
  childExitOk : Bool
  deriving Repr, DecidableEq

/-- Close closes the stdin pipe and waits for ffmpeg to finish (ffmpeg.go).
Returns the operations performed, in order, and the resulting error. -/
def FFmpeg.Close (env : CloseEnv) : List CloseOp × Option CloseErr :=
  if !env.stdinCloseOk then
    ([.closeStdin], some .stdinClose)
  else if !env.childExitOk then
    ([.closeStdin, .waitChild], some .ffmpegExit)
  else
    ([.closeStdin, .waitChild], none)

/-! ### Helper lemmas -/

/-- Normal form of `withDefaults`: each field defaults independently. -/
theorem withDefaults_eq (o : Options) :
    o.withDefaults =
      { Width := if o.Width = 0 then 1920 else o.Width
        Height := if o.Height = 0 then 1080 else o.Height
        FrameRate := if o.FrameRate = 0 then 30 else o.FrameRate
        SegmentDuration := if o.SegmentDuration = 0 then 2 else o.SegmentDuration
        Port := o.Port } := by
  rcases o with ⟨w, h, f, s, p⟩
  by_cases hw : w = 0 <;> by_cases hh : h = 0 <;>
    by_cases hf : f = 0 <;> by_cases hs : s = 0 <;>
    simp [Options.withDefaults, DefaultOptions, hw, hh, hf, hs]

/-- What one `WaitReady` poll iteration decides: the context error, the
timeout, readiness, or nothing (keep polling). -/
def tickOutcome (t : WRTick) : Option WRResult :=
  if t.ctxDone then some .ctxErr
  else if t.pastDeadline then some .timeout
  else
    match t.m3u8 with
    | some n => if n > 0 then some .ready else none
    | none => none

/-! ### Claims -/

/-- C6: for every options value whose numeric fields are zero, `withDefaults`
yields the documented defaults (width 1920, height 1080, frame rate 30,
segment duration 2) for every field except port, which always passes through
unchanged; and `withDefaults` never overwrites a non-zero field. -/
theorem withDefaults_spec (o : Options) :
    (o.Width = 0 → o.withDefaults.Width = 1920) ∧
    (o.Height = 0 → o.withDefaults.Height = 1080) ∧
    (o.FrameRate = 0 → o.withDefaults.FrameRate = 30) ∧
    (o.SegmentDuration = 0 → o.withDefaults.SegmentDuration = 2) ∧
    (o.Width ≠ 0 → o.withDefaults.Width = o.Width) ∧
    (o.Height ≠ 0 → o.withDefaults.Height = o.Height) ∧
    (o.FrameRate ≠ 0 → o.withDefaults.FrameRate = o.FrameRate) ∧
    (o.SegmentDuration ≠ 0 → o.withDefaults.SegmentDuration = o.SegmentDuration) ∧
    o.withDefaults.Port = o.Port := by
  rw [withDefaults_eq]
  exact ⟨fun h => by simp [h], fun h => by simp [h], fun h => by simp [h],
    fun h => by simp [h], fun h => by simp [h], fun h => by simp [h],
    fun h => by simp [h], fun h => by simp [h], rfl⟩

/-- Witness for C6: `withDefaults` on `⟨0, 5, 0, -3, 7⟩` fills the zero
width and frame rate with defaults and leaves the other fields alone. -/
theorem withDefaults_spec_witness :
    (Options.withDefaults ⟨0, 5, 0, -3, 7⟩).Width = 1920 ∧
    (Options.withDefaults ⟨0, 5, 0, -3, 7⟩).Height = 5 ∧
    (Options.withDefaults ⟨0, 5, 0, -3, 7⟩).FrameRate = 30 ∧
    (Options.withDefaults ⟨0, 5, 0, -3, 7⟩).SegmentDuration = -3 ∧
    (Options.withDefaults ⟨0, 5, 0, -3, 7⟩).Port = 7 := by
  obtain ⟨h1, h2, h3, h4, h5, h6, h7, h8, h9⟩ := withDefaults_spec ⟨0, 5, 0, -3, 7⟩
  exact ⟨h1 rfl, h6 (by decide), h3 rfl, h8 (by decide), h9⟩

/-- C10: `New` performs no validation: for every options value, including
ones with negative fields, it returns a non-nil encoder and a nil error, and
negative width/height/frame-rate/segment-duration values pass through
`withDefaults` unchanged into the encoder's options (only exactly-zero
fields are replaced); the new encoder is not running. -/
theorem New_no_validation (o : Options) :
    (New o).1.isSome = true ∧
    (New o).2 = none ∧
    ∀ st, (New o).1 = some st →
      st.running = false ∧
      (o.Width < 0 → st.opts.Width = o.Width) ∧
      (o.Height < 0 → st.opts.Height = o.Height) ∧
      (o.FrameRate < 0 → st.opts.FrameRate = o.FrameRate) ∧
      (o.SegmentDuration < 0 → st.opts.SegmentDuration = o.SegmentDuration) ∧
      st.opts.Port = o.Port := by
  refine ⟨rfl, rfl, ?_⟩
  intro st hst
  have hst' : st = initEncState o.withDefaults := by
    simpa [New] using hst.symm
  subst hst'
  refine ⟨rfl, ?_, ?_, ?_, ?_, ?_⟩
  · intro hlt
    simp only [initEncState, withDefaults_eq]
    rw [if_neg (by omega)]
  · intro hlt
    simp only [initEncState, withDefaults_eq]
    rw [if_neg (by omega)]
  · intro hlt
    simp only [initEncState, withDefaults_eq]
    rw [if_neg (by omega)]
  · intro hlt
    simp only [initEncState, withDefaults_eq]
    rw [if_neg (by omega)]
  · simp only [initEncState, withDefaults_eq]

/-- Witness for C10: `New` on all-negative options returns a non-nil,
non-running encoder, a nil error, and the negative values intact. -/
theorem New_no_validation_witness :
    (New ⟨-1, -2, -3, -4, -5⟩).1.isSome = true ∧
    (New ⟨-1, -2, -3, -4, -5⟩).2 = none ∧
    ∀ st, (New ⟨-1, -2, -3, -4, -5⟩).1 = some st →
      st.running = false ∧ st.opts.Width = -1 ∧ st.opts.Height = -2 ∧
      st.opts.FrameRate = -3 ∧ st.opts.SegmentDuration = -4 ∧
      st.opts.Port = -5 := by
  obtain ⟨h1, h2, h3⟩ := New_no_validation ⟨-1, -2, -3, -4, -5⟩
  refine ⟨h1, h2, ?_⟩
  intro st hst
  obtain ⟨g1, g2, g3, g4, g5, g6⟩ := h3 st hst
  exact ⟨g1, g2 (by decide), g3 (by decide), g4 (by decide), g5 (by decide), g6⟩

/-- C8: calling `Start` on an already-running encoder returns the
already-running error, performs no side effect (no directory creation, no
server start, no spawn), and leaves the state of the first run unchanged. -/
theorem start_already_running (e : EncState) (env : StartEnv)
    (h : e.running = true) :
    Encoder.Start e env = (e, [], .error .alreadyRunning) := by
  unfold Encoder.Start
  simp [h]

/-- Witness for C8: a concrete running encoder. -/
theorem start_already_running_witness :
    Encoder.Start
        { opts := DefaultOptions, ffmpeg := true, hlsServer := true,
          outputDir := "d", running := true, hasCancel := true }
        { mkdirOk := true, dirName := "d2", bindOk := true, boundPort := 80,
          spawnOk := true, outboundIP := "ip" } =
      ({ opts := DefaultOptions, ffmpeg := true, hlsServer := true,
         outputDir := "d", running := true, hasCancel := true },
       [], .error .alreadyRunning) :=
  start_already_running _ _ rfl

/-- C9: calling `Stop` on an encoder that is not running (including one
never started) is a no-op: no teardown step executes, the state is
unchanged, and the result is success (nil error). -/
theorem stop_not_running (e : EncState) (env : StopEnv)
    (h : e.running = false) :
    Encoder.Stop e env = (e, [], none) := by
  unfold Encoder.Stop
  simp [h]

/-- Witness for C9: `Stop` on a freshly-created (never started) encoder. -/
theorem stop_not_running_witness :
    Encoder.Stop (initEncState DefaultOptions)
        { closeFails := false, serverStopFails := false, removeFails := false } =
      (initEncState DefaultOptions, [], none) :=
  stop_not_running _ _ rfl

/-- C7: `WriteFrame` with a buffer whose length differs from
width×height×4 returns the frame-size error without passing any bytes to the
child's stdin; with a buffer of exactly that length, the whole buffer is
passed to stdin in a single write call. -/
theorem writeFrame_spec (opts : Options) (data : List Nat) (writeOk : Bool) :
    ((data.length : Int) ≠ opts.Width * opts.Height * 4 →
      FFmpeg.WriteFrame opts data writeOk = ([], some .frameSize)) ∧
    ((data.length : Int) = opts.Width * opts.Height * 4 →
      (FFmpeg.WriteFrame opts data writeOk).1 = [data]) := by
  constructor
  · intro h
    unfold FFmpeg.WriteFrame
    simp [h]
  · intro h
    unfold FFmpeg.WriteFrame
    rcases writeOk with _ | _ <;> simp [h]

/-- Witness for C7: with 1×1 options (expected size 4), a 3-byte buffer is
rejected with no write, and a 4-byte buffer is written whole. -/
theorem writeFrame_spec_witness :
    FFmpeg.WriteFrame ⟨1, 1, 30, 2, 0⟩ [9, 9, 9] true = ([], some .frameSize) ∧
    (FFmpeg.WriteFrame ⟨1, 1, 30, 2, 0⟩ [9, 9, 9, 9] true).1 = [[9, 9, 9, 9]] :=
  ⟨(writeFrame_spec ⟨1, 1, 30, 2, 0⟩ [9, 9, 9] true).1 (by decide),
   (writeFrame_spec ⟨1, 1, 30, 2, 0⟩ [9, 9, 9, 9] true).2 (by decide)⟩

/-- Counterexample to C5 as stated: when `stdin.Close()` fails (and the
child would exit with status zero), `ffmpegProcess.Close` returns the close
error immediately and never performs `cmd.Wait()` — so the child is not
always waited on, and an error is returned although the child did not exit
with a non-zero status. -/
theorem ffmpegClose_counterexample :
    FFmpeg.Close { stdinCloseOk := false, childExitOk := true } =
        ([CloseOp.closeStdin], some CloseErr.stdinClose) ∧
      CloseOp.waitChild ∉
        (FFmpeg.Close { stdinCloseOk := false, childExitOk := true }).1 := by
  decide

/-- C5 (amended): `Close` first closes the input stream; if that close
fails, its error is returned immediately and the child is not waited on;
if the close succeeds, `Close` waits for the child to exit and returns an
error exactly when the child exited with a non-zero status. -/
theorem ffmpegClose_amended (env : CloseEnv) :
    (env.stdinCloseOk = false →
      FFmpeg.Close env = ([CloseOp.closeStdin], some CloseErr.stdinClose)) ∧
    (env.stdinCloseOk = true →
      (FFmpeg.Close env).1 = [CloseOp.closeStdin, CloseOp.waitChild] ∧
      ((FFmpeg.Close env).2 = none ↔ env.childExitOk = true)) := by
  rcases env with ⟨sc, ce⟩
  rcases sc with _ | _ <;> rcases ce with _ | _ <;>
    simp [FFmpeg.Close]

/-- Witness for C5 (amended): with a successful stdin close and a non-zero
child exit status, `Close` waits for the child and reports the exit error. -/
theorem ffmpegClose_amended_witness :
    (FFmpeg.Close { stdinCloseOk := true, childExitOk := false }).1 =
        [CloseOp.closeStdin, CloseOp.waitChild] ∧
      ¬(FFmpeg.Close { stdinCloseOk := true, childExitOk := false }).2 = none := by
  have h := (ffmpegClose_amended { stdinCloseOk := true, childExitOk := false }).2 rfl
  exact ⟨h.1, fun hn => by simpa using h.2.mp hn⟩

/-- C1: on a running pipeline (all three resources held), `Stop` executes
all four teardown steps — close the encoder adapter, stop the origin server,
remove the working directory, transition to Idle — regardless of which steps
fail, and returns the first error encountered (nil if none failed). -/
theorem stop_teardown (e : EncState) (env : StopEnv)
    (hr : e.running = true) (hf : e.ffmpeg = true) (hs : e.hlsServer = true)
    (hd : e.outputDir ≠ "") :
    StopStep.closeFFmpeg ∈ (Encoder.Stop e env).2.1 ∧
    StopStep.stopServer ∈ (Encoder.Stop e env).2.1 ∧
    StopStep.removeDir ∈ (Encoder.Stop e env).2.1 ∧
    (Encoder.Stop e env).1.running = false ∧
    (Encoder.Stop e env).2.2 =
      (if env.closeFails then some StopErr.ffmpegClose
       else if env.serverStopFails then some StopErr.serverStop
       else if env.removeFails then some StopErr.cleanup
       else none) := by
  rcases env with ⟨cf, sf, rf⟩
  unfold Encoder.Stop
  rcases cf with _ | _ <;> rcases sf with _ | _ <;> rcases rf with _ | _ <;>
    simp [hr, hf, hs, hd]

/-- Witness for C1: a fully running encoder where the first two teardown
steps fail; all steps still run and the ffmpeg-close error is reported. -/
theorem stop_teardown_witness :
    StopStep.closeFFmpeg ∈
        (Encoder.Stop
          { opts := DefaultOptions, ffmpeg := true, hlsServer := true,
            outputDir := "d", running := true, hasCancel := true }
          { closeFails := true, serverStopFails := true, removeFails := false }).2.1 ∧
      StopStep.stopServer ∈
        (Encoder.Stop
          { opts := DefaultOptions, ffmpeg := true, hlsServer := true,
            outputDir := "d", running := true, hasCancel := true }
          { closeFails := true, serverStopFails := true, removeFails := false }).2.1 ∧
      StopStep.removeDir ∈
        (Encoder.Stop
          { opts := DefaultOptions, ffmpeg := true, hlsServer := true,
            outputDir := "d", running := true, hasCancel := true }
          { closeFails := true, serverStopFails := true, removeFails := false }).2.1 ∧
      (Encoder.Stop
          { opts := DefaultOptions, ffmpeg := true, hlsServer := true,
            outputDir := "d", running := true, hasCancel := true }
          { closeFails := true, serverStopFails := true, removeFails := false }).1.running = false ∧
      (Encoder.Stop
          { opts := DefaultOptions, ffmpeg := true, hlsServer := true,
            outputDir := "d", running := true, hasCancel := true }
          { closeFails := true, serverStopFails := true, removeFails := false }).2.2 =
        (if true then some StopErr.ffmpegClose
         else if true then some StopErr.serverStop
         else if false then some StopErr.cleanup
         else none) :=
  stop_teardown _ _ rfl rfl rfl (by decide)

/-- C2: when `Start` on an idle encoder fails acquiring a resource, every
resource acquired in that attempt is released before returning (each
directory created is removed, each server started is stopped, no encoder
process is left), the encoder is not running afterwards; in particular, on
spawn failure the server is stopped and the working directory removed. -/
theorem start_failure_cleanup (e : EncState) (env : StartEnv)
    (h : e.running = false) (err : StartErr)
    (he : (Encoder.Start e env).2.2 = .error err) :
    (∀ d, StartAction.mkdirTemp d ∈ (Encoder.Start e env).2.1 →
      StartAction.removeAll d ∈ (Encoder.Start e env).2.1) ∧
    (∀ p, StartAction.serverStart p ∈ (Encoder.Start e env).2.1 →
      StartAction.serverStop p ∈ (Encoder.Start e env).2.1) ∧
    StartAction.spawnEncoder ∉ (Encoder.Start e env).2.1 ∧
    (Encoder.Start e env).1.running = false ∧
    (err = .spawn →
      StartAction.serverStop env.boundPort ∈ (Encoder.Start e env).2.1 ∧
      StartAction.removeAll env.dirName ∈ (Encoder.Start e env).2.1) := by
  rcases env with ⟨mk, d, bd, p, sp, ip⟩
  unfold Encoder.Start at he ⊢
  rcases mk with _ | _ <;> rcases bd with _ | _ <;> rcases sp with _ | _ <;>
    simp_all [h] <;> (subst he; simp)

/-- Witness for C2: spawn failure on an idle encoder; the server is stopped
and the directory removed, and the encoder stays idle. -/
theorem start_failure_cleanup_witness :
    (∀ d, StartAction.mkdirTemp d ∈
        (Encoder.Start (initEncState DefaultOptions)
          { mkdirOk := true, dirName := "tmp", bindOk := true, boundPort := 8080,
            spawnOk := false, outboundIP := "ip" }).2.1 →
      StartAction.removeAll d ∈
        (Encoder.Start (initEncState DefaultOptions)
          { mkdirOk := true, dirName := "tmp", bindOk := true, boundPort := 8080,
            spawnOk := false, outboundIP := "ip" }).2.1) ∧
    (∀ p, StartAction.serverStart p ∈
        (Encoder.Start (initEncState DefaultOptions)
          { mkdirOk := true, dirName := "tmp", bindOk := true, boundPort := 8080,
            spawnOk := false, outboundIP := "ip" }).2.1 →
      StartAction.serverStop p ∈
        (Encoder.Start (initEncState DefaultOptions)
          { mkdirOk := true, dirName := "tmp", bindOk := true, boundPort := 8080,
            spawnOk := false, outboundIP := "ip" }).2.1) ∧
    StartAction.spawnEncoder ∉
      (Encoder.Start (initEncState DefaultOptions)
        { mkdirOk := true, dirName := "tmp", bindOk := true, boundPort := 8080,
          spawnOk := false, outboundIP := "ip" }).2.1 ∧
    (Encoder.Start (initEncState DefaultOptions)
        { mkdirOk := true, dirName := "tmp", bindOk := true, boundPort := 8080,
          spawnOk := false, outboundIP := "ip" }).1.running = false ∧
    (StartErr.spawn = StartErr.spawn →
      StartAction.serverStop (8080 : Int) ∈
        (Encoder.Start (initEncState DefaultOptions)
          { mkdirOk := true, dirName := "tmp", bindOk := true, boundPort := 8080,
            spawnOk := false, outboundIP := "ip" }).2.1 ∧
      StartAction.removeAll "tmp" ∈
        (Encoder.Start (initEncState DefaultOptions)
          { mkdirOk := true, dirName := "tmp", bindOk := true, boundPort := 8080,
            spawnOk := false, outboundIP := "ip" }).2.1) :=
  start_failure_cleanup (initEncState DefaultOptions)
    { mkdirOk := true, dirName := "tmp", bindOk := true, boundPort := 8080,
      spawnOk := false, outboundIP := "ip" } rfl StartErr.spawn rfl

/-- C3: whenever every `WriteFrame` call succeeds, the buffers the forwarding
task passes to the encoder are exactly the conversions of the correctly-sized
frames among the frames it takes before cancellation/closure, in order: no
reordering, no drops other than dimension-mismatched frames (for which
`frameToRGBA` returns `none`) and frames arriving after cancellation; a
mismatched frame does not terminate the task, so later correctly-sized
frames are still forwarded. -/
theorem processFrames_spec (opts : Options) (ws : List Bool)
    (events : List FrameEvent) (hw : ∀ b ∈ ws, b = true) :
    (Encoder.processFrames opts ws events).1 =
      (takenFrames events).filterMap (Encoder.frameToRGBA opts) := by
  induction events generalizing ws with
  | nil => simp [Encoder.processFrames, takenFrames]
  | cons ev rest ih =>
    cases ev with
    | ctxDone => simp [Encoder.processFrames, takenFrames]
    | closed => simp [Encoder.processFrames, takenFrames]
    | frame f =>
      cases hfr : Encoder.frameToRGBA opts f with
      | none =>
        simp [Encoder.processFrames, takenFrames, hfr, ih ws hw]
      | some buf =>
        have hhd : ws.head?.getD true = true := by
          cases ws with
          | nil => rfl
          | cons b bs => simpa using hw b (List.mem_cons_self b bs)
        have htl : ∀ b ∈ ws.tail, b = true := fun b hb =>
          hw b (List.mem_of_mem_tail hb)
        simp [Encoder.processFrames, takenFrames, hfr, hhd, ih ws.tail htl]

/-- Witness for C3: with 1×1 options, a run containing a mismatched 2×2
frame and a cancellation forwards exactly the two correctly-sized frames
seen before the cancellation, in order. -/
theorem processFrames_spec_witness :
    (Encoder.processFrames ⟨1, 1, 30, 2, 0⟩ []
        [.frame ⟨1, 1, [1, 2, 3, 4]⟩, .frame ⟨2, 2, [9]⟩,
         .frame ⟨1, 1, [5, 6, 7, 8]⟩, .ctxDone, .frame ⟨1, 1, [0, 0, 0, 0]⟩]).1 =
      (takenFrames
        [.frame ⟨1, 1, [1, 2, 3, 4]⟩, .frame ⟨2, 2, [9]⟩,
         .frame ⟨1, 1, [5, 6, 7, 8]⟩, .ctxDone, .frame ⟨1, 1, [0, 0, 0, 0]⟩]).filterMap
        (Encoder.frameToRGBA ⟨1, 1, 30, 2, 0⟩) ∧
    (takenFrames
        [.frame ⟨1, 1, [1, 2, 3, 4]⟩, .frame ⟨2, 2, [9]⟩,
         .frame ⟨1, 1, [5, 6, 7, 8]⟩, .ctxDone, .frame ⟨1, 1, [0, 0, 0, 0]⟩]).filterMap
        (Encoder.frameToRGBA ⟨1, 1, 30, 2, 0⟩) = [[1, 2, 3, 4], [5, 6, 7, 8]] :=
  ⟨processFrames_spec ⟨1, 1, 30, 2, 0⟩ [] _ (by simp), by decide⟩

/-- A tick whose outcome is `none` makes the polling loop continue. -/
theorem waitReadyLoop_pending (u : WRTick) (l : List WRTick)
    (h : tickOutcome u = none) : waitReadyLoop (u :: l) = waitReadyLoop l := by
  rcases u with ⟨cd, pd, m⟩
  rcases cd with _ | _ <;> rcases pd with _ | _ <;>
    rcases m with _ | n <;> simp_all [tickOutcome, waitReadyLoop]

/-- A prefix of ticks with no outcome is skipped by the polling loop. -/
theorem waitReadyLoop_skip (pre l : List WRTick)
    (hp : ∀ u ∈ pre, tickOutcome u = none) :
    waitReadyLoop (pre ++ l) = waitReadyLoop l := by
  induction pre with
  | nil => rfl
  | cons u pre ih =>
    rw [List.cons_append, waitReadyLoop_pending u _ (hp u (List.mem_cons_self u pre)),
      ih fun v hv => hp v (List.mem_cons_of_mem u hv)]

/-- C4: `WaitReady` on a never-started encoder (empty working-directory
field) returns the not-started error immediately, whatever the environment;
otherwise, after any stretch of undecided polls, the first decisive poll
determines the result: a fired context yields the context's cancellation
error, an elapsed deadline (context not fired) yields the timeout error, and
an observed non-empty playlist file (neither fired nor elapsed) yields
success. -/
theorem waitReady_spec (dir : String) (pre post : List WRTick) (t : WRTick)
    (hp : ∀ u ∈ pre, tickOutcome u = none) :
    Encoder.WaitReady "" (pre ++ t :: post) = some WRResult.notStarted ∧
    (dir ≠ "" →
      (t.ctxDone = true →
        Encoder.WaitReady dir (pre ++ t :: post) = some WRResult.ctxErr) ∧
      (t.ctxDone = false → t.pastDeadline = true →
        Encoder.WaitReady dir (pre ++ t :: post) = some WRResult.timeout) ∧
      (∀ n, t.ctxDone = false → t.pastDeadline = false → t.m3u8 = some n →
        0 < n →
        Encoder.WaitReady dir (pre ++ t :: post) = some WRResult.ready)) := by
  constructor
  · simp [Encoder.WaitReady]
  · intro hdir
    have hW : Encoder.WaitReady dir (pre ++ t :: post) = waitReadyLoop (t :: post) := by
      simp [Encoder.WaitReady, hdir, waitReadyLoop_skip pre _ hp]
    refine ⟨?_, ?_, ?_⟩
    · intro hcd
      rw [hW]; simp [waitReadyLoop, hcd]
    · intro hcd hpd
      rw [hW]; simp [waitReadyLoop, hcd, hpd]
    · intro n hcd hpd hm hn
      rw [hW]; simp [waitReadyLoop, hcd, hpd, hm, hn]

/-- Witness for C4: with one undecided poll followed by a poll observing a
3-byte playlist, `WaitReady` on a started encoder returns success, and on a
never-started one returns the not-started error. -/
theorem waitReady_spec_witness :
    Encoder.WaitReady ""
        ([⟨false, false, some 0⟩] ++ ⟨false, false, some 3⟩ :: [⟨true, true, some 5⟩]) =
      some WRResult.notStarted ∧
    Encoder.WaitReady "d"
        ([⟨false, false, some 0⟩] ++ ⟨false, false, some 3⟩ :: [⟨true, true, some 5⟩]) =
      some WRResult.ready := by
  have h := waitReady_spec "d" [⟨false, false, some 0⟩] [⟨true, true, some 5⟩]
    ⟨false, false, some 3⟩ (by decide)
  exact ⟨h.1, (h.2 (by decide)).2.2 3 rfl rfl rfl (by decide)⟩

end NimsforestEncoder
